import Mathlib

/-!
Shallow embedding of the task-orchestration core of the ffmpeg-service
repository: the Redis queue/cache client (`src/app/services/redis_service.py`),
the task status machine driven by the executors (`src/workers/processors.py`
and `src/app/services/supabase_service.py`), the retrying fetcher
(`src/utils/file_utils.py`), the eviction sweeper
(`src/app/services/cleanup_service.py`) and the dispatch loop with its
concurrency gate (`src/worker.py`).  Machine-level effects (actual HTTP,
actual filesystem) are modelled as explicit state passed through the
functions; the control flow of each Python function is translated
branch-for-branch.
-/

/-! ## Configuration (`src/app/config.py`) -/

/-- Embeds the `Settings` class of `src/app/config.py`, keeping the fields the
orchestration core reads, with the source's default values. -/
structure Settings where
  maxFileSizeMb : Nat
  maxConcurrentWorkers : Nat
  taskTtlHours : Nat
deriving DecidableEq, Repr

/-- The source defaults: `MAX_FILE_SIZE_MB=100`, `MAX_CONCURRENT_WORKERS=3`,
`TASK_TTL_HOURS=2`. -/
def Settings.default : Settings := ⟨100, 3, 2⟩

/-- `Settings.max_file_size_bytes`: MB converted to bytes. -/
def Settings.maxFileSizeBytes (s : Settings) : Nat := s.maxFileSizeMb * 1024 * 1024

/-- `Settings.task_ttl_seconds`: hours converted to seconds. -/
def Settings.taskTtlSeconds (s : Settings) : Nat := s.taskTtlHours * 3600

/-! ## Task model (`src/app/models/task.py`) -/

/-- `TaskStatus` enum from `src/app/models/task.py`. -/
inductive TaskStatus
  | queued
  | running
  | success
  | failed
deriving DecidableEq, Repr

/-- `TaskType` enum from `src/app/models/task.py`. -/
inductive TaskType
  | caption
  | merge
  | backgroundMusic
deriving DecidableEq, Repr

/-- A terminal status, i.e. one of SUCCESS or FAILED. -/
def TaskStatus.isTerminal : TaskStatus → Bool
  | .success => true
  | .failed => true
  | _ => false

/-! ## Executor status updates (`src/workers/processors.py`)

Each of `process_caption_task`, `process_merge_task` and
`process_background_music_task` issues exactly the same sequence of
`update_task_status` calls: RUNNING first (line 61 / 174 / 287), then at the
end either SUCCESS (success path) or FAILED (the `except` handler).  The
outcome of the external transformation is abstracted as a boolean. -/

/-- The ordered list of statuses an executor writes to the record store for
one task: `RUNNING` on entry, then `SUCCESS` if every step succeeded or
`FAILED` if any step raised. -/
def executorStatusUpdates (ok : Bool) : List TaskStatus :=
  if ok then [.running, .success] else [.running, .failed]

/-- The full status history of a task: it is created with status `QUEUED` by
the submission path (`supabase_service.create_task`) and then receives the
executor's updates in order. -/
def taskStatusHistory (ok : Bool) : List TaskStatus :=
  .queued :: executorStatusUpdates ok

/-- The transition edges the specification allows:
QUEUED→RUNNING, RUNNING→SUCCESS, RUNNING→FAILED. -/
def allowedTransition (a b : TaskStatus) : Prop :=
  (a = .queued ∧ b = .running) ∨
  (a = .running ∧ (b = .success ∨ b = .failed))

instance (a b : TaskStatus) : Decidable (allowedTransition a b) :=
  decidable_of_iff
    ((a = .queued ∧ b = .running) ∨ (a = .running ∧ (b = .success ∨ b = .failed)))
    Iff.rfl

/-! ## Queue & cache client (`src/app/services/redis_service.py`)

The Redis list keyed by `ffmpeg:queue` is modelled as a Lean list whose head
is the `LPUSH` end; `BRPOP` therefore pops the last element.  The envelope
`{"task_id": ..., "task_type": ...}` is carried as a structure (the
`json.dumps`/`json.loads` round trip of this flat two-field object is
faithful).  The key/value cache written by `SETEX` is an association list
from the per-task key to the envelope.  The failure injection booleans say
whether the `lpush` call, the `setex` call and the log-line `llen` call
raise; a raise lands in the method's `except` block, which returns
`False`. -/

/-- The queue envelope `{task_id, task_type}`. -/
structure Envelope where
  task_id : String
  task_type : String
deriving DecidableEq, Repr

/-- Shared Redis state: the FIFO list and the metadata cache. -/
structure RedisState where
  queue : List Envelope
  cache : List (String × Envelope)
deriving DecidableEq, Repr

/-- `task_key_prefix` field of `RedisService`. -/
def taskKeyBase : String := "ffmpeg:task:"

/-- `RedisService.enqueue_task`: `lpush` the envelope onto the queue, then
`setex` the per-task cache key, then `llen` the queue for the log line
(line 78) — three fallible calls inside one `try`.  A raise from any of
them is caught by the surrounding `except`, which returns `False`; the
effects already performed are not rolled back.  In particular a failing
`llen` returns `False` although both writes have succeeded. -/
def enqueue_task (st : RedisState) (env : Envelope)
    (lpushOk setexOk llenOk : Bool) : Bool × RedisState :=
  if !lpushOk then
    (false, st)
  else
    let st1 : RedisState := { st with queue := env :: st.queue }
    if !setexOk then
      (false, st1)
    else
      let st2 : RedisState :=
        { st1 with cache := (taskKeyBase ++ env.task_id, env) :: st1.cache }
      if !llenOk then
        (false, st2)
      else
        (true, st2)

/-- `RedisService.dequeue_task`: `brpop` from the queue — pops the element at
the opposite end from `lpush`, i.e. the last element of the list; returns
`none` on timeout (empty queue). -/
def dequeue_task (st : RedisState) : Option Envelope × RedisState :=
  match st.queue.getLast? with
  | some env => (some env, { st with queue := st.queue.dropLast })
  | none => (none, st)

/-- `RedisService.delete_task_metadata`: removes the per-task cache key. -/
def delete_task_metadata (st : RedisState) (taskId : String) : RedisState :=
  { st with cache := st.cache.filter (fun kv => kv.1 != taskKeyBase ++ taskId) }

/-! ## Fetcher (`src/utils/file_utils.py`)

`check_file_size` and `download_file` are embedded over an abstract server
behaviour.  A URL is reduced to the one piece of it the fetcher inspects: the
optional `Expires` query parameter, already parsed to a Unix timestamp
(`check_url_expiration` parses it with `int`; a missing or unparsable value
behaves as absent).  The wall clock `now` is passed explicitly.

The HEAD probe of `check_file_size` is reduced to its observable outcome.
A 403 or 405 on HEAD falls into the inner handler, which retries with a
ranged GET; if that GET fails for any reason the bare `except` returns 0, so
the outer 403 branch of `check_file_size` is unreachable and is not
represented.  A 404 is re-raised to the outer handler and becomes a
`DownloadError`; any other error status logs and returns 0, as does a
network-level error or a missing length header. -/

/-- The part of a URL the fetcher inspects: the parsed `Expires` query
parameter, if present. -/
structure Url where
  expires : Option Nat
deriving DecidableEq, Repr

/-- `check_url_expiration`: returns whether the URL's `Expires` timestamp is
strictly in the past, together with the timestamp the error text reports
(the code formats it as a human-readable datetime). -/
def check_url_expiration (url : Url) (now : Nat) : Bool × Option Nat :=
  match url.expires with
  | some t => (decide (t < now), some t)
  | none => (false, none)

/-- Observable outcome of the size probe's HTTP exchanges. -/
inductive HeadOutcome
  /-- network-level error on the HEAD request: `httpx.RequestError`. -/
  | netFailure
  /-- successful HEAD; `some n` is the reported length (merging the
  `content-length` and parsed `content-range` cases), `none` means no
  usable length header. -/
  | ok (len : Option Nat)
  /-- 403 or 405 on HEAD, so the ranged GET fallback ran: `none` means the
  fallback failed (bare `except` returns 0), `some len` means it succeeded
  with the given length information. -/
  | forbiddenThenRange (len : Option (Option Nat))
  /-- 404 on HEAD: re-raised, the outer handler raises `DownloadError`. -/
  | notFound
  /-- any other error status: the outer handler logs and returns 0. -/
  | otherStatus (code : Nat)
deriving DecidableEq, Repr

/-- Errors raised by the fetcher, replacing Python's exception classes:
`sizeLimit` is `FileSizeLimitExceeded`; all other constructors are
`DownloadError` values distinguished by their message. -/
inductive FetchErr
  | sizeLimit
  | notFound
  /-- terminal 403: "The URL has expired", carrying the recomputed expiry
  timestamp embedded in the message. -/
  | expired (t : Nat)
  /-- the retrying-403 `last_error` value ("Access denied (403), retrying"). -/
  | forbiddenRetrying
  /-- terminal 403 after exhausted retries ("may require special
  authentication"). -/
  | accessDenied
  /-- `HTTP error {code} during download` for other statuses. -/
  | httpOther (code : Nat)
  /-- `Network error` (`httpx.RequestError`). -/
  | network
  /-- `Server error {code}, retrying` `last_error` value. -/
  | serverError (code : Nat)
  /-- the fallback `DownloadError("Download failed after all retries")`. -/
  | downloadFailed
deriving DecidableEq, Repr

/-- `check_file_size`, over the probe outcome: raises `FileSizeLimitExceeded`
when a reported length exceeds the configured maximum, raises
`DownloadError` on 404, and otherwise returns the length or 0. -/
def check_file_size (maxBytes : Nat) (h : HeadOutcome) : Except FetchErr Nat :=
  match h with
  | .netFailure => .ok 0
  | .ok len => sizeOf' maxBytes len
  | .forbiddenThenRange none => .ok 0
  | .forbiddenThenRange (some len) => sizeOf' maxBytes len
  | .notFound => .error .notFound
  | .otherStatus _ => .ok 0
where
  /-- the common tail of `check_file_size`: extract the size and compare it
  against `settings.max_file_size_bytes`. -/
  sizeOf' (maxBytes : Nat) : Option Nat → Except FetchErr Nat
  | none => .ok 0
  | some n => if maxBytes < n then .error .sizeLimit else .ok n

/-- Behaviour of one GET attempt of `download_file`. -/
inductive GetAttempt
  /-- `httpx.RequestError` raised before the destination file is opened
  (connection failure). -/
  | connFailure
  /-- `response.raise_for_status()` raises with this status code; the
  destination file has not been opened in this attempt. -/
  | httpStatus (code : Nat)
  /-- the body streams: the destination is opened (created/truncated) and the
  listed chunks are written in order; if `interrupted` is true an
  `httpx.RequestError` strikes after the listed chunks. -/
  | stream (chunks : List Nat) (interrupted : Bool)

/-- Full server behaviour across a `download_file` call: the probe outcome
(used only on attempt 0) and the GET behaviour of each attempt. -/
structure ServerBehavior where
  head : HeadOutcome
  get : Nat → GetAttempt

/-- Result of walking the body chunks with the in-flight size check
(`if downloaded_size > settings.max_file_size_bytes`): either all chunks
were written (`completed total`) or the check fired after writing `written`
bytes, the partial file was removed and `FileSizeLimitExceeded` raised. -/
inductive StreamOutcome
  | completed (total : Nat)
  | exceeded (written : Nat)
deriving DecidableEq, Repr

/-- The chunk loop of `download_file`: each chunk is written, the running
count incremented, and the count compared against the maximum. -/
def streamChunks (maxBytes : Nat) : List Nat → Nat → StreamOutcome
  | [], written => .completed written
  | c :: cs, written =>
    let w := written + c
    if maxBytes < w then .exceeded w else streamChunks maxBytes cs w

instance : DecidableEq (Except FetchErr Nat) := fun a b =>
  match a, b with
  | .ok x, .ok y => decidable_of_iff (x = y) (by simp)
  | .error e, .error f => decidable_of_iff (e = f) (by simp)
  | .ok _, .error _ => isFalse (by simp)
  | .error _, .ok _ => isFalse (by simp)

/-- Everything observable about one `download_file` call: the returned value
or raised error, the total bytes ever written to the destination, the list
of backoff sleeps performed (in order, each `2 ** attempt`), the number of
attempts begun, and the bytes sitting at the destination path afterwards
(`none` = no file). -/
structure FetchResult where
  out : Except FetchErr Nat
  bytesStreamed : Nat
  waits : List Nat
  attemptsUsed : Nat
  fileLeft : Option Nat
deriving DecidableEq, Repr

/-- One iteration of `download_file`'s `for attempt in range(max_retries)`
loop and the recursion into the remaining iterations.  `fuel` is the number
of iterations remaining after the current one, so `fuel = 0` means
`attempt == max_retries - 1` (the `attempt < max_retries - 1` tests).  A
`fuel`-exhausted call is the loop falling through to
`raise last_error or DownloadError("Download failed after all retries")`. -/
def downloadGo (maxBytes : Nat) (url : Url) (now : Nat) (sb : ServerBehavior)
    (skipSizeCheck : Bool) :
    Nat → Nat → Option Nat → Nat → List Nat → Option FetchErr → FetchResult
  | attempt, 0, file, bytes, waits, lastErr =>
    ⟨.error (lastErr.getD .downloadFailed), bytes, waits, attempt, file⟩
  | attempt, fuel + 1, file, bytes, waits, _lastErr =>
    -- size probe, only on attempt 0 and only when not skipped; a
    -- `DownloadError` from it is caught and ignored, `FileSizeLimitExceeded`
    -- propagates through `except FileSizeLimitExceeded: raise`.
    if attempt == 0 && !skipSizeCheck
        && decide (check_file_size maxBytes sb.head = .error .sizeLimit) then
      ⟨.error .sizeLimit, bytes, waits, attempt + 1, file⟩
    else
      match sb.get attempt with
      | .connFailure =>
        -- `except httpx.RequestError`: retry if not last, no file cleanup
        if fuel != 0 then
          downloadGo maxBytes url now sb skipSizeCheck (attempt + 1) fuel
            file bytes (waits ++ [2 ^ attempt]) (some .network)
        else
          ⟨.error .network, bytes, waits, attempt + 1, file⟩
      | .httpStatus code =>
        if code == 403 then
          if (check_url_expiration url now).1 then
            ⟨.error (.expired ((check_url_expiration url now).2.getD 0)),
              bytes, waits, attempt + 1, file⟩
          else if fuel != 0 then
            downloadGo maxBytes url now sb skipSizeCheck (attempt + 1) fuel
              file bytes (waits ++ [2 ^ attempt]) (some .forbiddenRetrying)
          else
            ⟨.error .accessDenied, bytes, waits, attempt + 1, file⟩
        else if code == 404 then
          ⟨.error .notFound, bytes, waits, attempt + 1, file⟩
        else if 500 ≤ code then
          -- server errors sleep and continue unconditionally, even on the
          -- last attempt (the loop then falls through to `raise last_error`)
          downloadGo maxBytes url now sb skipSizeCheck (attempt + 1) fuel
            file bytes (waits ++ [2 ^ attempt]) (some (.serverError code))
        else
          ⟨.error (.httpOther code), bytes, waits, attempt + 1, file⟩
      | .stream chunks interrupted =>
        -- `open(output_path, "wb")` creates/truncates the destination
        match streamChunks maxBytes chunks 0 with
        | .exceeded w =>
          -- in-flight limit hit: partial file removed, terminal raise
          ⟨.error .sizeLimit, bytes + w, waits, attempt + 1, none⟩
        | .completed w =>
          if interrupted then
            -- `except httpx.RequestError`: the partial file is NOT removed
            if fuel != 0 then
              downloadGo maxBytes url now sb skipSizeCheck (attempt + 1) fuel
                (some w) (bytes + w) (waits ++ [2 ^ attempt]) (some .network)
            else
              ⟨.error .network, bytes + w, waits, attempt + 1, some w⟩
          else
            ⟨.ok w, bytes + w, waits, attempt + 1, some w⟩

/-- `download_file(url, output_path, skip_size_check, headers, max_retries)`:
runs the retry loop starting with no file at the destination.  The source
default for `max_retries` is 3. -/
def download_file (maxBytes : Nat) (url : Url) (now : Nat)
    (sb : ServerBehavior) (skipSizeCheck : Bool) (maxRetries : Nat) :
    FetchResult :=
  downloadGo maxBytes url now sb skipSizeCheck 0 maxRetries none 0 [] none

/-! ## Eviction sweeper (`src/app/services/cleanup_service.py`)

`cleanup_old_videos` asks Supabase for old terminal tasks, then for each one
deletes the output file named by the last path component of
`result_video_url` (if such a file exists) and deletes the task's Redis
cache entry.  The filesystem of the output directory is modelled as the list
of filenames present; Redis is the `RedisState` above. -/

/-- The fields of a Supabase task row the sweeper reads. -/
structure SweepTask where
  id : String
  status : TaskStatus
  /-- `result_video_url`, set only on success. -/
  resultVideoUrl : Option String
  /-- `completed_at`, as epoch seconds. -/
  completedAt : Nat
deriving DecidableEq, Repr

/-- `SupabaseService.get_old_tasks` (lines 148-177).  The happy path calls
the `get_old_tasks` RPC with `hours_old`; only the RPC's SQL body is
missing from the repository and is modelled from the spec
(`list_terminal_older_than(duration)`): the terminal tasks (SUCCESS or
FAILED) whose `completed_at` is at least `hours` hours in the past.  When
the RPC raises (`rpcOk = false`), the method's `except` fallback instead
queries every task with status in `["success", "failed"]` — with no age
filter at all; and when that fallback query itself raises
(`fallbackOk = false`), the method returns the empty list. -/
def get_old_tasks (hours : Nat) (now : Nat) (tasks : List SweepTask)
    (rpcOk fallbackOk : Bool) : List SweepTask :=
  if rpcOk then
    tasks.filter (fun t =>
      t.status.isTerminal && decide (t.completedAt + hours * 3600 ≤ now))
  else if fallbackOk then
    tasks.filter (fun t => t.status.isTerminal)
  else
    []

/-- Python's `url.split("/")[-1]`: the substring after the last `/`, or the
whole string when there is no `/`. -/
def lastUrlComponent (u : String) : String :=
  ⟨lastComp u.data⟩
where
  /-- walk the characters, restarting the accumulator after each `/`. -/
  lastComp : List Char → List Char
  | [] => []
  | c :: rest => if c = '/' then lastComp rest
                 else if rest.contains '/' then lastComp rest
                 else c :: rest

/-- The sweeper's view of the world: the filenames in
`settings.video_output_dir` and the Redis state. -/
structure SweepEnv where
  files : List String
  redis : RedisState
deriving DecidableEq, Repr

/-- The per-task body of `cleanup_old_videos`'s loop: if the task has a
`result_video_url`, derive the filename and delete the file when present;
then delete the task's Redis metadata. -/
def cleanupOneTask (env : SweepEnv) (t : SweepTask) : SweepEnv :=
  let env1 :=
    match t.resultVideoUrl with
    | some u =>
      let filename := lastUrlComponent u
      if env.files.contains filename then
        { env with files := env.files.erase filename }
      else
        env
    | none => env
  { env1 with redis := delete_task_metadata env1.redis t.id }

/-- `CleanupService.cleanup_old_videos`: fetch the tasks selected by
`get_old_tasks` for `settings.task_ttl_hours` (passing through whether the
RPC and its fallback query succeed) and run the per-task cleanup over
them. -/
def cleanup_old_videos (ttlHours : Nat) (now : Nat) (rpcOk fallbackOk : Bool)
    (tasks : List SweepTask) (env : SweepEnv) : SweepEnv :=
  (get_old_tasks ttlHours now tasks rpcOk fallbackOk).foldl cleanupOneTask env

/-! ## Worker dispatcher and concurrency gate (`src/worker.py`)

`worker_loop` constructs `asyncio.Semaphore(settings.max_concurrent_workers)`
and, for every dequeued envelope, launches `process_task` with
`asyncio.create_task` without awaiting it.  `process_task` first loads the
full record from Supabase (dropping the task if absent) and only then enters
`async with semaphore`, inside which the matching executor runs.  The system
is modelled as a counting abstraction over the population of `process_task`
coroutines: `fetching` counts coroutines before semaphore acquisition,
`running` counts coroutines inside the `async with` block (the semaphore's
value is `N - running`), `finished` counts completed coroutines. -/

/-- Counting abstraction of the dispatcher's coroutine population. -/
structure WorkerState where
  fetching : Nat
  running : Nat
  finished : Nat
deriving DecidableEq, Repr

/-- No coroutines at startup. -/
def WorkerState.init : WorkerState := ⟨0, 0, 0⟩

/-- The events of the dispatcher system, `N` being
`settings.max_concurrent_workers`. -/
inductive WorkerStep (N : Nat) : WorkerState → WorkerState → Prop
  /-- the loop dequeues an envelope and fires `asyncio.create_task
  (process_task ...)`; this is never guarded by the semaphore. -/
  | dispatch (s : WorkerState) :
      WorkerStep N s { s with fetching := s.fetching + 1 }
  /-- `process_task` finds no record in Supabase and returns without ever
  touching the semaphore. -/
  | dropMissing (s : WorkerState) (h : 0 < s.fetching) :
      WorkerStep N s
        { s with fetching := s.fetching - 1, finished := s.finished + 1 }
  /-- `async with semaphore` admits the coroutine: only possible while the
  semaphore value `N - running` is positive. -/
  | acquire (s : WorkerState) (h : 0 < s.fetching) (hN : s.running < N) :
      WorkerStep N s
        { s with fetching := s.fetching - 1, running := s.running + 1 }
  /-- the executor finishes (either way) and the `async with` block releases
  the semaphore. -/
  | release (s : WorkerState) (h : 0 < s.running) :
      WorkerStep N s
        { s with running := s.running - 1, finished := s.finished + 1 }

/-- States reachable from startup under the dispatcher events. -/
def WorkerReachable (N : Nat) : WorkerState → Prop :=
  Relation.ReflTransGen (WorkerStep N) WorkerState.init

/-! ## Served-file validation (`src/utils/file_utils.py`, lines 379-433) -/

/-- Python's `pat in s` on strings: substring containment. -/
def strContains (s pat : String) : Bool :=
  decide (pat.data <:+: s.data)

/-- Python's `s.endswith(pat)`. -/
def strEndsWith (s pat : String) : Bool :=
  decide (pat.data <:+ s.data)

/-- The result-filename whitelist of `validate_filename`. -/
def validSuffixes : List String :=
  ["_captioned.mp4", "_merged.mp4", "_with_music.mp4", "_final.mp4",
   "_composed.mp4"]

/-- Python's `s.rsplit(sep, 1)` produces two parts exactly when `sep` occurs
in `s`; this returns the two parts of the split at the last occurrence, or
`none` when `sep` does not occur. -/
def rsplitOnce (sep : Char) : List Char → Option (List Char × List Char)
  | [] => none
  | c :: rest =>
    match rsplitOnce sep rest with
    | some (a, b) => some (c :: a, b)
    | none => if c = sep then some ([], rest) else none

/-- `validate_filename`: rejects path-traversal characters, then requires a
whitelisted result suffix, then requires `filename.rsplit("_", 1)` to have
exactly two parts. -/
def validate_filename (filename : String) : Bool :=
  if strContains filename ".." || strContains filename "/"
      || strContains filename "\\" then
    false
  else if !(validSuffixes.any (fun suf => strEndsWith filename suf)) then
    false
  else
    (rsplitOnce '_' filename.data).isSome

/-- `get_video_path`: validates the filename, joins it under
`settings.video_output_dir` and checks the result is an existing regular
file.  The filesystem checks `os.path.exists` and `os.path.isfile` are
passed as predicates. -/
def get_video_path (videoOutputDir : String) (fsExists isFile : String → Bool)
    (filename : String) : Option String :=
  if !validate_filename filename then
    none
  else
    let filePath := videoOutputDir ++ "/" ++ filename
    if !fsExists filePath then none
    else if !isFile filePath then none
    else some filePath

/-! ## Theorems -/

/-- C1: at every moment at most `N` executor runs (caption, merge,
background-music processing) execute concurrently, where `N` is the
configured worker limit (`settings.max_concurrent_workers`, default 3): in
every state reachable from startup the number of coroutines inside
`async with semaphore` is at most `N`; moreover the dispatch event is enabled
in every state — the gate blocks an executor's start, never the dispatch
loop. -/
theorem c1_concurrency_gate_bound (N : Nat) (s : WorkerState)
    (h : WorkerReachable N s) :
    s.running ≤ N ∧ WorkerStep N s { s with fetching := s.fetching + 1 } := by
  refine ⟨?_, .dispatch s⟩
  induction h with
  | refl => simp [WorkerState.init]
  | tail _ step ih =>
    cases step with
    | dispatch => exact ih
    | dropMissing h' => exact ih
    | acquire h' hN => exact hN
    | release h' => exact le_trans (Nat.sub_le _ _) ih

/-- Witness for C1 at the default worker limit `N = 3`: a concrete reachable
state (startup, one dispatch, one acquisition) satisfies the bound. -/
theorem c1_concurrency_gate_bound_witness :
    WorkerReachable 3 ⟨0, 1, 0⟩ ∧ (1 : Nat) ≤ 3 := by
  have h1 : WorkerStep 3 WorkerState.init ⟨1, 0, 0⟩ :=
    WorkerStep.dispatch WorkerState.init
  have h2 : WorkerStep 3 ⟨1, 0, 0⟩ ⟨0, 1, 0⟩ :=
    WorkerStep.acquire ⟨1, 0, 0⟩ (by decide) (by decide)
  have hreach : WorkerReachable 3 ⟨0, 1, 0⟩ :=
    Relation.ReflTransGen.tail (Relation.ReflTransGen.single h1) h2
  exact ⟨hreach, (c1_concurrency_gate_bound 3 ⟨0, 1, 0⟩ hreach).1⟩

/-- C2: for every task, the status written by the executors moves only along
QUEUED→RUNNING→SUCCESS or QUEUED→RUNNING→FAILED: the full status history is
a chain of the allowed transitions starting at QUEUED, and a terminal status
(SUCCESS or FAILED) occurs only in the last position, so no step leaves a
terminal status and no other transition is reachable. -/
theorem c2_status_machine (ok : Bool) :
    List.Chain' allowedTransition (taskStatusHistory ok) ∧
    (taskStatusHistory ok).head? = some .queued ∧
    ∀ i : Fin (taskStatusHistory ok).length,
      ((taskStatusHistory ok).get i).isTerminal = true →
      (i : Nat) = (taskStatusHistory ok).length - 1 := by
  cases ok <;> refine ⟨?_, rfl, by decide⟩ <;>
    simp [taskStatusHistory, executorStatusUpdates, List.chain'_cons,
      allowedTransition]

/-- C3: an `enqueue_task` immediately followed by a `dequeue_task`, with no
other envelope on the queue, returns the very envelope enqueued — in
particular with the same `task_id` and `task_type` — and leaves the queue
empty again. -/
theorem c3_enqueue_dequeue_roundtrip (env : Envelope) (st : RedisState)
    (h : st.queue = []) :
    (dequeue_task (enqueue_task st env true true true).2).1 = some env ∧
    ((dequeue_task (enqueue_task st env true true true).2).1.map Envelope.task_id
      = some env.task_id) ∧
    ((dequeue_task (enqueue_task st env true true true).2).1.map Envelope.task_type
      = some env.task_type) ∧
    (dequeue_task (enqueue_task st env true true true).2).2.queue = [] := by
  simp [enqueue_task, dequeue_task, h]

/-- Witness for C3 on a concrete envelope and an empty queue. -/
theorem c3_enqueue_dequeue_roundtrip_witness :
    (dequeue_task (enqueue_task ⟨[], []⟩ ⟨"t1", "caption"⟩ true true true).2).1
      = some ⟨"t1", "caption"⟩ :=
  (c3_enqueue_dequeue_roundtrip ⟨"t1", "caption"⟩ ⟨[], []⟩ rfl).1

/-- C8 counterexample: the claim that the sweeper leaves every terminal task
completed less than 2 hours ago untouched is false on the RPC-failure
fallback path of `supabase_service.get_old_tasks` (lines 167-177): when the
RPC raises, the fallback returns every SUCCESS/FAILED task with no age
filter, and a sweeper pass deletes the output file and Redis cache entry of
a terminal task completed only 60 seconds ago. -/
theorem c8_sweeper_retention_counterexample :
    cleanup_old_videos 2 1060 false true
        [⟨"abc", .success, some "http://h/video/abc_captioned.mp4", 1000⟩]
        ⟨["abc_captioned.mp4"],
         ⟨[], [("ffmpeg:task:abc", ⟨"abc", "caption"⟩)]⟩⟩
      = ⟨[], ⟨[], []⟩⟩ := by
  decide

/-- C8 amended: with the retention window at its configured 2 hours
(`settings.task_ttl_hours`), and provided the `get_old_tasks` RPC succeeds,
a sweeper pass over a terminal task deletes the task's output file and its
Redis cache entry exactly when `completed_at` is at least 2 hours
(7200 seconds) in the past, and leaves the filesystem and cache untouched
when the task completed less than 2 hours ago.  When the RPC fails, the
fallback selects every terminal task with no age filter and the
under-2-hours guarantee does not hold (see the counterexample). -/
theorem c8_sweeper_retention (t : SweepTask) (env : SweepEnv) (now : Nat)
    (u : String) (fallbackOk : Bool)
    (hterm : t.status.isTerminal = true)
    (hurl : t.resultVideoUrl = some u)
    (hfile : lastUrlComponent u ∈ env.files) :
    (t.completedAt + 7200 ≤ now →
      (cleanup_old_videos 2 now true fallbackOk [t] env).files
          = env.files.erase (lastUrlComponent u) ∧
      (cleanup_old_videos 2 now true fallbackOk [t] env).redis
          = delete_task_metadata env.redis t.id ∧
      ∀ e, (taskKeyBase ++ t.id, e) ∉
          (cleanup_old_videos 2 now true fallbackOk [t] env).redis.cache) ∧
    (now < t.completedAt + 7200 →
      cleanup_old_videos 2 now true fallbackOk [t] env = env) := by
  constructor
  · intro h
    have hsel : get_old_tasks 2 now [t] true fallbackOk = [t] := by
      simp [get_old_tasks, hterm]; omega
    refine ⟨?_, ?_, ?_⟩
    · simp [cleanup_old_videos, hsel, cleanupOneTask, hurl, hfile,
        delete_task_metadata]
    · simp [cleanup_old_videos, hsel, cleanupOneTask, hurl, hfile]
    · intro e he
      simp only [cleanup_old_videos, hsel, List.foldl_cons, List.foldl_nil,
        cleanupOneTask, hurl, hfile, if_pos, delete_task_metadata] at he
      have := (List.mem_filter.mp he).2
      simp at this
  · intro h
    have hsel : get_old_tasks 2 now [t] true fallbackOk = [] := by
      simp [get_old_tasks, hterm]; omega
    simp [cleanup_old_videos, hsel]

/-- Witness for C8 amended: with the RPC succeeding, a concrete terminal
task is swept at exactly 2 hours (file and cache entry removed) and left
fully unchanged at 1h59m. -/
theorem c8_sweeper_retention_witness :
    (cleanup_old_videos 2 8200 true true
        [⟨"abc", .success, some "http://h/video/abc_captioned.mp4", 1000⟩]
        ⟨["abc_captioned.mp4"],
         ⟨[], [("ffmpeg:task:abc", ⟨"abc", "caption"⟩)]⟩⟩).files = [] ∧
    (cleanup_old_videos 2 8140 true true
        [⟨"abc", .success, some "http://h/video/abc_captioned.mp4", 1000⟩]
        ⟨["abc_captioned.mp4"],
         ⟨[], [("ffmpeg:task:abc", ⟨"abc", "caption"⟩)]⟩⟩)
      = ⟨["abc_captioned.mp4"],
         ⟨[], [("ffmpeg:task:abc", ⟨"abc", "caption"⟩)]⟩⟩ := by
  constructor
  · have h := (c8_sweeper_retention
      ⟨"abc", .success, some "http://h/video/abc_captioned.mp4", 1000⟩
      ⟨["abc_captioned.mp4"],
       ⟨[], [("ffmpeg:task:abc", ⟨"abc", "caption"⟩)]⟩⟩ 8200
      "http://h/video/abc_captioned.mp4" true rfl rfl (by decide)).1 (by decide)
    rw [h.1]; decide
  · exact (c8_sweeper_retention
      ⟨"abc", .success, some "http://h/video/abc_captioned.mp4", 1000⟩
      ⟨["abc_captioned.mp4"],
       ⟨[], [("ffmpeg:task:abc", ⟨"abc", "caption"⟩)]⟩⟩ 8140
      "http://h/video/abc_captioned.mp4" true rfl rfl (by decide)).2 (by decide)

/-- C9 counterexample: the claim that `enqueue_task`'s queue push and cache
write are atomic — that a failing call leaves no partial success — is false:
when `lpush` succeeds and `setex` fails, the call returns failure yet the
envelope sits in the queue with no cache mirror. -/
theorem c9_counterexample :
    (enqueue_task ⟨[], []⟩ ⟨"t1", "caption"⟩ true false true).1 = false ∧
    (enqueue_task ⟨[], []⟩ ⟨"t1", "caption"⟩ true false true).2.queue
      = [⟨"t1", "caption"⟩] ∧
    (enqueue_task ⟨[], []⟩ ⟨"t1", "caption"⟩ true false true).2.cache = [] :=
  ⟨rfl, rfl, rfl⟩

/-- C9 amended: `enqueue_task` returns success exactly when the queue push,
the cache write and the subsequent queue-length read all succeed — so
failure of either write does return failure, but a returned failure does
not imply that a write failed: when the log-line `llen` call fails after
both writes succeeded, the call returns failure with the envelope queued
and the cache mirror in place.  A `lpush` failure leaves the state
untouched, and a cache mirror is never written without its envelope being
queued; but the converse partial state — envelope queued, no cache mirror —
does occur when `setex` fails after a successful `lpush` (see the
counterexample), so the operation is not atomic. -/
theorem c9_enqueue_failure_semantics (st : RedisState) (env : Envelope)
    (lpushOk setexOk llenOk : Bool) :
    ((enqueue_task st env lpushOk setexOk llenOk).1
      = (lpushOk && setexOk && llenOk)) ∧
    (lpushOk = false → (enqueue_task st env lpushOk setexOk llenOk).2 = st) ∧
    (∀ k e, (k, e) ∈ (enqueue_task st env lpushOk setexOk llenOk).2.cache →
      (k, e) ∈ st.cache ∨
        e ∈ (enqueue_task st env lpushOk setexOk llenOk).2.queue) ∧
    ((enqueue_task st env true true false).1 = false ∧
      (enqueue_task st env true true false).2.queue = env :: st.queue ∧
      (taskKeyBase ++ env.task_id, env)
        ∈ (enqueue_task st env true true false).2.cache) := by
  refine ⟨?_, ?_, ?_, rfl, rfl, by simp [enqueue_task]⟩
  · cases lpushOk <;> cases setexOk <;> cases llenOk <;> rfl
  · intro h; subst h; rfl
  · intro k e he
    cases lpushOk with
    | false => exact Or.inl (by simpa [enqueue_task] using he)
    | true =>
      cases setexOk with
      | false => exact Or.inl (by simpa [enqueue_task] using he)
      | true =>
        cases llenOk <;>
        · simp only [enqueue_task, Bool.not_true, Bool.not_false,
            Bool.false_eq_true, if_false, if_true, List.mem_cons,
            Prod.mk.injEq] at he ⊢
          rcases he with ⟨-, rfl⟩ | hmem
          · exact Or.inr (Or.inl rfl)
          · exact Or.inl hmem

/-- Witness for C9 amended, at a concrete state where all three calls
succeed. -/
theorem c9_enqueue_failure_semantics_witness :
    (enqueue_task ⟨[], []⟩ ⟨"t2", "merge"⟩ true true true).1 = true :=
  (c9_enqueue_failure_semantics ⟨[], []⟩ ⟨"t2", "merge"⟩ true true true).1

/-- C10: every filename containing `..`, `/` or `\` or lacking a whitelisted
result suffix is rejected by `validate_filename`, and `get_video_path`
returns `none` for it under any output directory and any filesystem, so the
public file-serving path never resolves such a name. -/
theorem c10_filename_validation (f : String)
    (h : strContains f ".." = true ∨ strContains f "/" = true ∨
         strContains f "\\" = true ∨
         validSuffixes.any (fun suf => strEndsWith f suf) = false) :
    validate_filename f = false ∧
    ∀ dir fsExists isFile, get_video_path dir fsExists isFile f = none := by
  have hv : validate_filename f = false := by
    rcases h with h | h | h | h
    · simp [validate_filename, h]
    · simp [validate_filename, h]
    · simp [validate_filename, h]
    · unfold validate_filename
      split
      · rfl
      · simp [h]
  exact ⟨hv, fun dir fsExists isFile => by simp [get_video_path, hv]⟩

/-- Witness for C10: the traversal name `..` is rejected and never served. -/
theorem c10_filename_validation_witness :
    validate_filename ".." = false ∧
    get_video_path "/tmp/videos" (fun _ => true) (fun _ => true) ".." = none :=
  ⟨(c10_filename_validation ".." (Or.inl (by decide))).1,
   (c10_filename_validation ".." (Or.inl (by decide))).2 "/tmp/videos"
     (fun _ => true) (fun _ => true)⟩

/-- Sum of the mapped backoff delays `2 ^ i` over `List.range n`. -/
lemma sum_map_two_pow_range (n : Nat) :
    ((List.range n).map (2 ^ ·)).sum = ∑ i ∈ Finset.range n, 2 ^ i := by
  induction n with
  | zero => simp
  | succ n ih =>
    rw [List.range_succ, Finset.sum_range_succ, List.map_append,
      List.sum_append, ih]
    simp

/-- C4: when the size probe reports a length over the configured maximum
(`check_file_size` raises `FileSizeLimitExceeded`), `download_file` with the
size check enabled fails on attempt 1 with the size-limit error, streams
zero bytes to the destination, performs no backoff waits and no retries, and
leaves no file behind. -/
theorem c4_probe_size_limit_immediate (maxBytes : Nat) (url : Url) (now : Nat)
    (sb : ServerBehavior) (maxRetries : Nat)
    (hprobe : check_file_size maxBytes sb.head = .error .sizeLimit)
    (hret : 1 ≤ maxRetries) :
    download_file maxBytes url now sb false maxRetries =
      ⟨.error .sizeLimit, 0, [], 1, none⟩ := by
  obtain ⟨k, rfl⟩ : ∃ k, maxRetries = k + 1 := ⟨maxRetries - 1, by omega⟩
  simp [download_file, downloadGo, hprobe]

/-- Witness for C4: a probe reporting 200 bytes against a 100-byte limit
aborts the fetch before any streaming. -/
theorem c4_probe_size_limit_immediate_witness :
    check_file_size 100 (HeadOutcome.ok (some 200)) = .error .sizeLimit ∧
    download_file 100 ⟨none⟩ 0
        ⟨.ok (some 200), fun _ => .stream [5] false⟩ false 3 =
      ⟨.error .sizeLimit, 0, [], 1, none⟩ :=
  ⟨by decide,
   c4_probe_size_limit_immediate 100 ⟨none⟩ 0
     ⟨.ok (some 200), fun _ => .stream [5] false⟩ 3 (by decide) (by decide)⟩

/-- The all-403, not-expired retry loop of `download_file`, from any attempt
at least 1 (so the attempt-0 size probe is behind us): every non-final
attempt sleeps `2 ^ attempt` and retries, the final attempt raises the
terminal access-denied error. -/
lemma downloadGo_forbidden_loop (maxBytes : Nat) (url : Url) (now : Nat)
    (sb : ServerBehavior) (skip : Bool)
    (hnex : (check_url_expiration url now).1 = false) :
    ∀ fuel attempt file bytes waits lastErr, 1 ≤ attempt →
    (∀ j, j ≤ fuel → sb.get (attempt + j) = .httpStatus 403) →
    downloadGo maxBytes url now sb skip attempt (fuel + 1) file bytes waits
        lastErr =
      ⟨.error .accessDenied, bytes,
        waits ++ (List.range' attempt fuel).map (2 ^ ·),
        attempt + fuel + 1, file⟩ := by
  intro fuel
  induction fuel with
  | zero =>
    intro attempt file bytes waits lastErr hatt hget
    have h0 : sb.get attempt = .httpStatus 403 := by
      simpa using hget 0 (Nat.le_refl 0)
    have hz : (attempt == 0) = false := by simp; omega
    simp [downloadGo, hz, h0, hnex]
  | succ fuel ih =>
    intro attempt file bytes waits lastErr hatt hget
    have h0 : sb.get attempt = .httpStatus 403 := by
      simpa using hget 0 (Nat.zero_le _)
    have hz : (attempt == 0) = false := by simp; omega
    have hrest : ∀ j, j ≤ fuel → sb.get (attempt + 1 + j) = .httpStatus 403 := by
      intro j hj
      have := hget (j + 1) (by omega)
      simpa [Nat.add_assoc, Nat.add_comm, Nat.add_left_comm] using this
    rw [show downloadGo maxBytes url now sb skip attempt (fuel + 1 + 1) file
          bytes waits lastErr =
        downloadGo maxBytes url now sb skip (attempt + 1) (fuel + 1) file
          bytes (waits ++ [2 ^ attempt]) (some .forbiddenRetrying) by
      simp [downloadGo, hz, h0, hnex]]
    rw [ih (attempt + 1) file bytes (waits ++ [2 ^ attempt]) _ (by omega) hrest]
    simp [List.range'_succ, Nat.add_assoc, Nat.add_comm, Nat.add_left_comm]

/-- C5: handling of 403 responses in `download_file`.  (a) If the URL's
`Expires` parameter is a past Unix timestamp and attempt 0 receives a 403,
the fetch fails on attempt 1, with no retries and no waits, with the
expiry-specific error carrying the recomputed expiry timestamp.  (b) If the
URL is not expired (future or absent `Expires`) and every attempt receives a
403, the fetch retries up to `max_retries` attempts — waiting `2 ^ i` after
each non-final attempt `i` — and then fails with the terminal access-denied
error. -/
theorem c5_forbidden_expiry_handling (maxBytes : Nat) (url : Url) (now : Nat)
    (sb : ServerBehavior) (t : Nat) (maxRetries : Nat)
    (hprobe : check_file_size maxBytes sb.head ≠ .error .sizeLimit)
    (hret : 1 ≤ maxRetries) :
    (url.expires = some t → t < now → sb.get 0 = .httpStatus 403 →
      download_file maxBytes url now sb false maxRetries =
        ⟨.error (.expired t), 0, [], 1, none⟩) ∧
    ((check_url_expiration url now).1 = false →
      (∀ i, i < maxRetries → sb.get i = .httpStatus 403) →
      download_file maxBytes url now sb false maxRetries =
        ⟨.error .accessDenied, 0,
          (List.range (maxRetries - 1)).map (2 ^ ·), maxRetries, none⟩) := by
  obtain ⟨k, rfl⟩ : ∃ k, maxRetries = k + 1 := ⟨maxRetries - 1, by omega⟩
  constructor
  · intro hexp hlt hget0
    simp [download_file, downloadGo, hprobe, hget0, check_url_expiration, hexp,
      hlt]
  · intro hnex hall
    cases k with
    | zero =>
      have h0 : sb.get 0 = .httpStatus 403 := hall 0 (by omega)
      simp [download_file, downloadGo, hprobe, h0, hnex]
    | succ k =>
      have h0 : sb.get 0 = .httpStatus 403 := hall 0 (by omega)
      have hstep : download_file maxBytes url now sb false (k + 1 + 1) =
          downloadGo maxBytes url now sb false 1 (k + 1) none 0 [2 ^ 0]
            (some .forbiddenRetrying) := by
        simp [download_file, downloadGo, hprobe, h0, hnex]
      rw [hstep, downloadGo_forbidden_loop maxBytes url now sb false hnex k 1
        none 0 [2 ^ 0] (some .forbiddenRetrying) (by omega)
        (fun j hj => hall (1 + j) (by omega))]
      rw [show List.range (k + 1 + 1 - 1) = 0 :: List.range' 1 k by
        rw [List.range_eq_range']
        simpa using List.range'_succ 0 k 1]
      simp [Nat.add_comm]

/-- Witness for C5: a server answering 403 on every attempt.  Against a URL
expired at timestamp 10 (clock at 20) the fetch fails at once with the
expiry error carrying 10; against the same URL before expiry (clock at 5)
it retries through all 3 attempts, waiting 1 then 2, and fails with the
access-denied error. -/
theorem c5_forbidden_expiry_handling_witness :
    download_file 100 ⟨some 10⟩ 20
        ⟨.forbiddenThenRange none, fun _ => .httpStatus 403⟩ false 3 =
      ⟨.error (.expired 10), 0, [], 1, none⟩ ∧
    download_file 100 ⟨some 10⟩ 5
        ⟨.forbiddenThenRange none, fun _ => .httpStatus 403⟩ false 3 =
      ⟨.error .accessDenied, 0, [1, 2], 3, none⟩ := by
  constructor
  · exact (c5_forbidden_expiry_handling 100 ⟨some 10⟩ 20
      ⟨.forbiddenThenRange none, fun _ => .httpStatus 403⟩ 10 3 (by decide)
      (by decide)).1 rfl (by decide) rfl
  · have h := (c5_forbidden_expiry_handling 100 ⟨some 10⟩ 5
      ⟨.forbiddenThenRange none, fun _ => .httpStatus 403⟩ 10 3 (by decide)
      (by decide)).2 (by decide) (fun i hi => rfl)
    rw [h]; decide

/-- The 500-then-success tail of `download_file`, from any attempt at least 1:
`k` consecutive server errors each sleep `2 ^ attempt` and continue, then the
streaming attempt completes and the fetch returns the streamed byte count. -/
lemma downloadGo_server_error_loop (maxBytes : Nat) (url : Url) (now : Nat)
    (sb : ServerBehavior) (skip : Bool) (cs : List Nat) (w : Nat)
    (hstream : streamChunks maxBytes cs 0 = .completed w) :
    ∀ k fuel attempt file bytes waits lastErr, 1 ≤ attempt → k ≤ fuel →
    (∀ j, j < k → sb.get (attempt + j) = .httpStatus 500) →
    sb.get (attempt + k) = .stream cs false →
    downloadGo maxBytes url now sb skip attempt (fuel + 1) file bytes waits
        lastErr =
      ⟨.ok w, bytes + w, waits ++ (List.range' attempt k).map (2 ^ ·),
        attempt + k + 1, some w⟩ := by
  intro k
  induction k with
  | zero =>
    intro fuel attempt file bytes waits lastErr hatt hk h500 hok
    have hz : (attempt == 0) = false := by simp; omega
    have hok' : sb.get attempt = .stream cs false := by simpa using hok
    simp [downloadGo, hz, hok', hstream]
  | succ k ih =>
    intro fuel attempt file bytes waits lastErr hatt hk h500 hok
    obtain ⟨fuel', rfl⟩ : ∃ f, fuel = f + 1 := ⟨fuel - 1, by omega⟩
    have hz : (attempt == 0) = false := by simp; omega
    have h0 : sb.get attempt = .httpStatus 500 := by
      simpa using h500 0 (by omega)
    rw [show downloadGo maxBytes url now sb skip attempt (fuel' + 1 + 1) file
          bytes waits lastErr =
        downloadGo maxBytes url now sb skip (attempt + 1) (fuel' + 1) file
          bytes (waits ++ [2 ^ attempt]) (some (.serverError 500)) by
      simp [downloadGo, hz, h0]]
    rw [ih (fuel') (attempt + 1) file bytes (waits ++ [2 ^ attempt]) _
      (by omega) (by omega)
      (fun j hj => by
        have := h500 (j + 1) (by omega)
        simpa [Nat.add_assoc, Nat.add_comm, Nat.add_left_comm] using this)
      (by simpa [Nat.add_assoc, Nat.add_comm, Nat.add_left_comm] using hok)]
    simp [List.range'_succ, Nat.add_assoc, Nat.add_comm, Nat.add_left_comm]

/-- C6: against a server answering 500 on the first `N - 1` attempts and
streaming the body successfully on attempt `N` (with `N ≤ max_retries`), the
fetch succeeds with the streamed byte count; attempt `i` (0-indexed) waits
exactly `2 ^ i` before retrying, and the total accumulated wait equals (and
so is at least) the sum of `2 ^ i` for `i < N - 1`. -/
theorem c6_retry_backoff (maxBytes : Nat) (url : Url) (now : Nat)
    (sb : ServerBehavior) (cs : List Nat) (w N maxRetries : Nat)
    (hprobe : check_file_size maxBytes sb.head ≠ .error .sizeLimit)
    (hstream : streamChunks maxBytes cs 0 = .completed w)
    (hN : 1 ≤ N) (hNmax : N ≤ maxRetries)
    (h500 : ∀ i, i < N - 1 → sb.get i = .httpStatus 500)
    (hok : sb.get (N - 1) = .stream cs false) :
    download_file maxBytes url now sb false maxRetries =
      ⟨.ok w, w, (List.range (N - 1)).map (2 ^ ·), N, some w⟩ ∧
    ∑ i ∈ Finset.range (N - 1), 2 ^ i ≤
      ((download_file maxBytes url now sb false maxRetries).waits).sum := by
  obtain ⟨n, rfl⟩ : ∃ n, N = n + 1 := ⟨N - 1, by omega⟩
  obtain ⟨k, rfl⟩ : ∃ k, maxRetries = k + 1 := ⟨maxRetries - 1, by omega⟩
  have hmain : download_file maxBytes url now sb false (k + 1) =
      ⟨.ok w, w, (List.range n).map (2 ^ ·), n + 1, some w⟩ := by
    cases n with
    | zero =>
      have h0 : sb.get 0 = .stream cs false := by simpa using hok
      simp [download_file, downloadGo, hprobe, h0, hstream]
    | succ n =>
      have h0 : sb.get 0 = .httpStatus 500 := by
        simpa using h500 0 (by omega)
      obtain ⟨k', rfl⟩ : ∃ k', k = k' + 1 := ⟨k - 1, by omega⟩
      have hstep : download_file maxBytes url now sb false (k' + 1 + 1) =
          downloadGo maxBytes url now sb false 1 (k' + 1) none 0 [2 ^ 0]
            (some (.serverError 500)) := by
        simp [download_file, downloadGo, hprobe, h0]
      rw [hstep, downloadGo_server_error_loop maxBytes url now sb false cs w
        hstream n (k') 1 none 0 [2 ^ 0] (some (.serverError 500)) (by omega)
        (by omega)
        (fun j hj => by
          have := h500 (1 + j) (by omega)
          simpa [Nat.add_comm] using this)
        (by simpa [Nat.add_comm] using hok)]
      rw [show List.range (n + 1) = 0 :: List.range' 1 n by
        rw [List.range_eq_range']
        simpa using List.range'_succ 0 n 1]
      simp [Nat.add_comm]
  refine ⟨by simpa using hmain, ?_⟩
  rw [hmain]
  simp [sum_map_two_pow_range]

/-- Witness for C6: two 500s then a successful 10-byte stream on the third
attempt, with backoff waits 1 and 2. -/
theorem c6_retry_backoff_witness :
    download_file 100 ⟨none⟩ 0
        ⟨.ok none, fun i => if i < 2 then .httpStatus 500
          else .stream [5, 5] false⟩ false 3 =
      ⟨.ok 10, 10, [1, 2], 3, some 10⟩ ∧
    (3 : Nat) ≤ [1, 2].sum := by
  have h := c6_retry_backoff 100 ⟨none⟩ 0
    ⟨.ok none, fun i => if i < 2 then .httpStatus 500
      else .stream [5, 5] false⟩ [5, 5] 10 3 3 (by decide) (by decide)
    (by decide) (by decide)
    (fun i hi => by
      have : i = 0 ∨ i = 1 := by omega
      rcases this with rfl | rfl <;> rfl)
    rfl
  constructor
  · rw [h.1]; decide
  · decide

/-- C7 counterexample: the claim that every terminal fetch failure removes
the partially written file before propagating is false.  A server that
streams 5 bytes and then drops the connection on every attempt makes
`download_file` end in a terminal network error after exhausting retries —
the `except httpx.RequestError` handler performs no cleanup — with the
5-byte partial file still at the destination. -/
theorem c7_cleanup_counterexample :
    (download_file 100 ⟨none⟩ 0 ⟨.ok none, fun _ => .stream [5] true⟩
        false 3).out = .error .network ∧
    (download_file 100 ⟨none⟩ 0 ⟨.ok none, fun _ => .stream [5] true⟩
        false 3).fileLeft = some 5 :=
  ⟨rfl, rfl⟩

/-- Size-limit failures always clean up: if a run of the retry loop ends in
the `FileSizeLimitExceeded` error, no file is left at the destination —
provided an attempt-0 entry starts with no file at the destination (as the
top-level call does) and the inherited `last_error` is not itself a
size-limit error (it never is: only network, 403-retry and 5xx errors are
stored there). -/
lemma downloadGo_size_limit_cleanup (maxBytes : Nat) (url : Url) (now : Nat)
    (sb : ServerBehavior) (skip : Bool) :
    ∀ fuel attempt file bytes waits lastErr,
    (attempt = 0 → file = none) →
    lastErr ≠ some .sizeLimit →
    (downloadGo maxBytes url now sb skip attempt fuel file bytes waits
        lastErr).out = .error .sizeLimit →
    (downloadGo maxBytes url now sb skip attempt fuel file bytes waits
        lastErr).fileLeft = none := by
  intro fuel
  induction fuel with
  | zero =>
    intro attempt file bytes waits lastErr hfile hlast hout
    exfalso
    cases lastErr with
    | none => simp [downloadGo] at hout
    | some e =>
      simp [downloadGo] at hout
      exact hlast (by rw [hout])
  | succ fuel ih =>
    intro attempt file bytes waits lastErr hfile hlast hout
    by_cases hguard : (attempt == 0 && !skip
        && decide (check_file_size maxBytes sb.head = .error .sizeLimit)) = true
    · have ha : attempt = 0 := by
        simp only [Bool.and_eq_true, beq_iff_eq] at hguard
        exact hguard.1.1
      simp only [downloadGo, hguard, if_true]
      exact hfile ha
    · rw [downloadGo, if_neg hguard] at hout ⊢
      cases hg : sb.get attempt with
      | connFailure =>
        rw [hg] at hout
        simp only [] at hout ⊢
        by_cases hf : (fuel != 0) = true
        · rw [if_pos hf] at hout ⊢
          exact ih (attempt + 1) file bytes (waits ++ [2 ^ attempt])
            (some .network) (by omega) (by simp) hout
        · rw [if_neg hf] at hout
          simp at hout
      | httpStatus code =>
        rw [hg] at hout
        simp only [] at hout ⊢
        by_cases h403 : (code == 403) = true
        · rw [if_pos h403] at hout ⊢
          by_cases hexp : (check_url_expiration url now).1 = true
          · rw [if_pos hexp] at hout
            simp at hout
          · rw [if_neg hexp] at hout ⊢
            by_cases hf : (fuel != 0) = true
            · rw [if_pos hf] at hout ⊢
              exact ih (attempt + 1) file bytes (waits ++ [2 ^ attempt])
                (some .forbiddenRetrying) (by omega) (by simp) hout
            · rw [if_neg hf] at hout
              simp at hout
        · rw [if_neg h403] at hout ⊢
          by_cases h404 : (code == 404) = true
          · rw [if_pos h404] at hout
            simp at hout
          · rw [if_neg h404] at hout ⊢
            by_cases h500 : 500 ≤ code
            · rw [if_pos h500] at hout ⊢
              exact ih (attempt + 1) file bytes (waits ++ [2 ^ attempt])
                (some (.serverError code)) (by omega) (by simp) hout
            · rw [if_neg h500] at hout
              simp at hout
      | stream chunks interrupted =>
        rw [hg] at hout
        simp only [] at hout ⊢
        cases hs : streamChunks maxBytes chunks 0 with
        | exceeded wr => rfl
        | completed wr =>
          rw [hs] at hout
          simp only [] at hout ⊢
          cases interrupted with
          | true =>
            simp only [if_true] at hout ⊢
            by_cases hf : (fuel != 0) = true
            · rw [if_pos hf] at hout ⊢
              exact ih (attempt + 1) (some wr) (bytes + wr)
                (waits ++ [2 ^ attempt]) (some .network) (by omega) (by simp)
                hout
            · rw [if_neg hf] at hout
              simp at hout
          | false => simp at hout

/-- C7 amended: `download_file` removes the partial file before propagating a
terminal size-limit failure (the probe variant has streamed nothing, the
in-flight variant deletes the partial file before raising); terminal
failures whose final attempt was a mid-stream network interruption, however,
leave the partial file at the destination (see the counterexample). -/
theorem c7_size_limit_cleanup (maxBytes : Nat) (url : Url) (now : Nat)
    (sb : ServerBehavior) (skip : Bool) (maxRetries : Nat)
    (h : (download_file maxBytes url now sb skip maxRetries).out
        = .error .sizeLimit) :
    (download_file maxBytes url now sb skip maxRetries).fileLeft = none :=
  downloadGo_size_limit_cleanup maxBytes url now sb skip maxRetries 0 none 0
    [] none (fun _ => rfl) (by simp) h

/-- Witness for C7 amended: a body of two 60-byte chunks against a 100-byte
limit aborts mid-stream with the size-limit error and no file left. -/
theorem c7_size_limit_cleanup_witness :
    (download_file 100 ⟨none⟩ 0 ⟨.ok none, fun _ => .stream [60, 60] false⟩
        false 3).out = .error .sizeLimit ∧
    (download_file 100 ⟨none⟩ 0 ⟨.ok none, fun _ => .stream [60, 60] false⟩
        false 3).fileLeft = none :=
  ⟨rfl, c7_size_limit_cleanup 100 ⟨none⟩ 0
    ⟨.ok none, fun _ => .stream [60, 60] false⟩ false 3 rfl⟩
